import Mathlib

/-!
Shallow embedding of the Curriculum-Generator core.

Source files modelled:
  - scripts/memory.py : normalize_slug, cosine, MemoryStore.search
  - scripts/postprocess_curriculum.py : CleanupInstruction (from_dict,
    applies_to_path, apply) and load_instructions
  - scripts/author_lessons.py : bundle_curriculum_output

Modelling conventions (shared by every definition below):
  - Python str is Lean String (a list of characters in this toolchain).
  - str.lower / str.upper are modelled character-wise on the ASCII cased
    range; characters outside it are fixed, which agrees with Python on
    every character class the code keeps (lower-case ASCII, digits, the
    Arabic block, hyphen, space).
  - str.strip strips the ASCII whitespace characters.
  - Python floats are exact rationals and math.sqrt is an abstract
    function parameter, so arithmetic claims are settled over exact
    arithmetic.
  - The compiled regular-expression engine of re is abstracted: a compiled
    pattern is its (source, flag-bits) pair and pattern.subn is an opaque
    function parameter.
  - Fallible Python code (raise SystemExit / ValueError / ZeroDivisionError)
    returns Except.
-/

/-- Python string truthiness choice `a or b`: `b` when `a` is empty. -/
def orElseStr (a b : String) : String := if a = "" then b else a

/-- A `dict.get(key)` result used in a truthy position: an absent key behaves
like the empty string. -/
def optStr (o : Option String) : String := o.getD ""

/-- ASCII lower-casing of one character (model of `str.lower`). -/
def asciiLower (c : Char) : Char :=
  if 65 ≤ c.toNat ∧ c.toNat ≤ 90 then Char.ofNat (c.toNat + 32) else c

/-- ASCII upper-casing of one character (model of `str.upper`). -/
def asciiUpper (c : Char) : Char :=
  if 97 ≤ c.toNat ∧ c.toNat ≤ 122 then Char.ofNat (c.toNat - 32) else c

/-- Lower-cased copy of a string. -/
def strLower (s : String) : String := String.mk (s.data.map asciiLower)

/-- Upper-cased copy of a string (used for regex flag names). -/
def strUpper (s : String) : String := String.mk (s.data.map asciiUpper)

/-- ASCII whitespace, the characters `str.strip` / `str.split` treat as
separators. -/
def isPySpaceChar (c : Char) : Bool :=
  c.toNat = 32 || c.toNat = 9 || c.toNat = 10 || c.toNat = 13 ||
    c.toNat = 11 || c.toNat = 12

/-- Model of `str.strip()`: drop whitespace at both ends. -/
def pyStrip (l : List Char) : List Char :=
  ((l.dropWhile isPySpaceChar).reverse.dropWhile isPySpaceChar).reverse

/-- The character class kept by the slug regex
`[^a-z0-9؀-ۿ\- ]+ -> ""`: lower-case ASCII letters, digits, the
Arabic block U+0600-U+06FF, hyphen (45) and space (32). -/
def keptChar (c : Char) : Bool :=
  (97 ≤ c.toNat && c.toNat ≤ 122) || (48 ≤ c.toNat && c.toNat ≤ 57) ||
    (1536 ≤ c.toNat && c.toNat ≤ 1791) || c.toNat = 45 || c.toNat = 32

/-- Model of `s.replace(" ", "-")` on one character. -/
def spaceToHyphen (c : Char) : Char := if c.toNat = 32 then '-' else c

/-- Model of `re.sub(r"-+", "-", s)`: collapse every run of hyphens to one.
The flag records whether the previous emitted character was a hyphen. -/
def collapseHyphensAux : Bool → List Char → List Char
  | _, [] => []
  | prevHyph, c :: rest =>
    if c = '-' then
      if prevHyph then collapseHyphensAux true rest
      else '-' :: collapseHyphensAux true rest
    else c :: collapseHyphensAux false rest

/-- Model of `re.sub(r"-+", "-", s)`. -/
def collapseHyphens (l : List Char) : List Char := collapseHyphensAux false l

/-- Function `normalize_slug` from scripts/memory.py: strip, lower, drop characters
outside the kept class, turn spaces into hyphens, collapse hyphen runs. -/
def normalize_slug (s : String) : String :=
  String.mk (collapseHyphens
    ((((pyStrip s.data).map asciiLower).filter keptChar).map spaceToHyphen))

/-! ## scripts/memory.py : cosine and MemoryStore.search -/

/-- Model of `sum(x*y for x, y in zip(a, b))`. -/
def sumProd (a b : List Rat) : Rat := ((a.zip b).map (fun p => p.1 * p.2)).sum

/-- Model of `sum(x*x for x in a)`. -/
def sumSq (a : List Rat) : Rat := (a.map (fun x => x * x)).sum

/-- Python float division: raises ZeroDivisionError on a zero denominator. -/
def pyDiv (x y : Rat) : Except String Rat :=
  if y = 0 then .error "ZeroDivisionError" else .ok (x / y)

/-- Function `cosine` from scripts/memory.py over exact rationals; `sqrt` abstracts
`math.sqrt` and is applied to the (non-negative) sums of squares. -/
def cosine (sqrt : Rat → Rat) (a b : List Rat) : Except String Rat :=
  if a = [] ∨ b = [] ∨ a.length ≠ b.length then .ok 0
  else
    let na := sqrt (sumSq a)
    let nb := sqrt (sumSq b)
    if na = 0 ∨ nb = 0 then .ok 0
    else pyDiv (sumProd a b) (na * nb)

/-- One record of the MemoryStore index. `meta` is reduced to the creation
timestamp the search code reads (`it.get("meta", {}).get("created_at", 0)`,
a missing timestamp being the caller-supplied 0). `id`, `path` and the other
meta entries play no role in search and are omitted. -/
structure Item where
  title : String
  slug : String
  module : String
  vector : List Rat
  created_at : Int
deriving DecidableEq

/-- Model of the vector test over the whole index. -/
def hasVec (items : List Item) : Bool := items.any fun it => 0 < it.vector.length

/-- The sort key of `items.sort(key=..., reverse=True)`: `a` may precede `b`
iff `a` was created no earlier than `b`. -/
def byRecent (a b : Item) : Prop := b.created_at ≤ a.created_at

instance : DecidableRel byRecent :=
  fun a b => inferInstanceAs (Decidable (b.created_at ≤ a.created_at))

instance : IsTotal Item byRecent := ⟨fun a b => Int.le_total b.created_at a.created_at⟩

instance : IsTrans Item byRecent := ⟨fun _ _ _ h1 h2 => le_trans h2 h1⟩

/-- Python stable sort, descending by creation time. -/
def sortRecent (items : List Item) : List Item := List.insertionSort byRecent items

/-- Here `wordsAux rest w` splits `rest` at whitespace runs; `w` is the current
word, reversed. Model of `str.split()` (no empty tokens). -/
def wordsAux : List Char → List Char → List (List Char)
  | [], [] => []
  | [], w => [w.reverse]
  | c :: rest, w =>
    if isPySpaceChar c then
      match w with
      | [] => wordsAux rest []
      | _ :: _ => w.reverse :: wordsAux rest []
    else wordsAux rest (c :: w)

/-- Model of `str.split()`. -/
def pySplit (s : String) : List String := (wordsAux s.data []).map String.mk

/-- Helper for the Python substring test `needle in hay`. -/
def strContainsAux (needle : List Char) : List Char → Bool
  | [] => needle.isEmpty
  | c :: rest => needle.isPrefixOf (c :: rest) || strContainsAux needle rest

/-- Python substring test `needle in hay`. -/
def strContains (hay needle : String) : Bool := strContainsAux needle.data hay.data

/-- The lower-cased haystack title-space-slug-space-module of one record. -/
def hayOf (it : Item) : String :=
  strLower (it.title ++ " " ++ it.slug ++ " " ++ it.module)

/-- The tokens of `" ".join(queries).lower().split()`. -/
def kwTokens (queries : List String) : List String :=
  pySplit (strLower (String.intercalate " " queries))

/-- Model of the keyword test: some token occurs in the haystack. -/
def kwMatch (queries : List String) (it : Item) : Bool :=
  (kwTokens queries).any fun w => strContains (hayOf it) w

/-- Method `MemoryStore.search` from scripts/memory.py. With no vectors in the
index: most-recent-first, truncated to `k`. Otherwise: keyword-matched
records first, each partition most-recent-first, truncated to `k`. -/
def MemoryStore.search (items : List Item) (queries : List String) (k : Nat) :
    List Item :=
  if !(hasVec items) then (sortRecent items).take k
  else
    let pref := items.filter (kwMatch queries)
    let others := items.filter fun it => !(kwMatch queries it)
    (sortRecent pref ++ sortRecent others).take k

/-! ## scripts/postprocess_curriculum.py : CleanupInstruction -/

/-- One instruction specification as parsed from the instructions JSON file
(the `spec` dict handed to `CleanupInstruction.from_dict`), reduced to the
keys that method reads. Absent keys are `none` / the Python defaults. -/
structure InstructionSpec where
  type : Option String := none
  description : Option String := none
  paths : List String := []
  exclude_paths : List String := []
  case_sensitive : Bool := true
  find : Option String := none
  replacement : Option String := none
  pattern : Option String := none
  flags : List String := []
  text : Option String := none
deriving DecidableEq

/-- The `CleanupInstruction` dataclass. A compiled regex is its
(source, flag-bits) pair; the regex engine itself is an `apply` parameter.
The mutable `count` field is not part of the value: `apply` returns the
per-application hit count and the caller accumulates it. -/
structure CleanupInstruction where
  kind : String
  description : String
  paths : List String := []
  exclude_paths : List String := []
  literal : Option String := none
  replacement : Option String := none
  pattern : Option (String × Nat) := none
  append_text : Option String := none
  prepend_text : Option String := none
  case_sensitive : Bool := true
deriving DecidableEq

/-- The flag loop of `from_dict` for `regex_sub`: IGNORECASE = 2,
MULTILINE = 8, DOTALL = 16 (the `re` module values); anything else is a
ValueError. -/
def computeFlags : List String → Except String Nat
  | [] => .ok 0
  | f :: rest =>
    let fu := strUpper f
    if fu = "IGNORECASE" then (computeFlags rest).map (fun v => 2 ||| v)
    else if fu = "MULTILINE" then (computeFlags rest).map (fun v => 8 ||| v)
    else if fu = "DOTALL" then (computeFlags rest).map (fun v => 16 ||| v)
    else .error ("Unsupported regex flag " ++ f ++ ".")

/-- Method `CleanupInstruction.from_dict`. A falsy (`None` or empty) `type` is an
error; `replace` requires `find`; `regex_sub` requires a truthy `pattern`
and supported flags; unsupported kinds are an error. (The regex source is
kept uncompiled; syntax errors `re.compile` itself could raise are outside
this model.) -/
def CleanupInstruction.from_dict (spec : InstructionSpec) :
    Except String CleanupInstruction :=
  match spec.type with
  | none => .error "Instruction missing type."
  | some kind =>
    if kind = "" then .error "Instruction missing type."
    else
      let inst : CleanupInstruction := {
        kind := kind,
        description := spec.description.getD kind,
        paths := spec.paths,
        exclude_paths := spec.exclude_paths,
        case_sensitive := spec.case_sensitive }
      if kind = "replace" then
        match spec.find with
        | none => .error "Replace instruction requires find."
        | some f =>
          .ok { inst with literal := some f,
                          replacement := some (spec.replacement.getD "") }
      else if kind = "regex_sub" then
        match spec.pattern with
        | none => .error "regex_sub instruction requires pattern."
        | some p =>
          if p = "" then .error "regex_sub instruction requires pattern."
          else
            match computeFlags spec.flags with
            | .error e => .error e
            | .ok fv =>
              .ok { inst with pattern := some (p, fv),
                              replacement := some (spec.replacement.getD "") }
      else if kind = "append" then
        .ok { inst with append_text := some (spec.text.getD "") }
      else if kind = "prepend" then
        .ok { inst with prepend_text := some (spec.text.getD "") }
      else .error ("Unsupported instruction type " ++ kind ++ ".")

/-- Method `CleanupInstruction.applies_to_path`. -/
def CleanupInstruction.applies_to_path (inst : CleanupInstruction)
    (path : String) : Bool :=
  if !inst.paths.isEmpty && !(inst.paths.any fun tok => strContains path tok) then
    false
  else if !inst.exclude_paths.isEmpty &&
      (inst.exclude_paths.any fun tok => strContains path tok) then
    false
  else true

/-- Model of `text.count(old)` and `text.replace(old, new)` fused into the single
left-to-right non-overlapping scan both use; returns the replaced text and
the number of occurrences. -/
def pyReplace (old new : List Char) : List Char → List Char × Nat
  | [] => ([], 0)
  | c :: rest =>
    if h : old ≠ [] ∧ old.isPrefixOf (c :: rest) then
      let r := pyReplace old new ((c :: rest).drop old.length)
      (new ++ r.1, r.2 + 1)
    else
      let r := pyReplace old new rest
      (c :: r.1, r.2)
termination_by l => l.length
decreasing_by
  · have h1 : 1 ≤ old.length := List.length_pos.mpr h.1
    simp only [List.length_drop, List.length_cons]
    omega
  · simp

/-- Case-insensitive occurrence scan: the effect of
`re.compile(re.escape(old), re.IGNORECASE).subn(new, text)`, matching
modulo ASCII lower-casing. -/
def pyReplaceCI (old new : List Char) : List Char → List Char × Nat
  | [] => ([], 0)
  | c :: rest =>
    if h : old ≠ [] ∧ (old.map asciiLower).isPrefixOf ((c :: rest).map asciiLower) then
      let r := pyReplaceCI old new ((c :: rest).drop old.length)
      (new ++ r.1, r.2 + 1)
    else
      let r := pyReplaceCI old new rest
      (c :: r.1, r.2)
termination_by l => l.length
decreasing_by
  · have h1 : 1 ≤ old.length := List.length_pos.mpr h.1
    simp only [List.length_drop, List.length_cons]
    omega
  · simp

/-- Model of `text.endswith(addition)`. -/
def strEndsWith (s suffix : String) : Bool := suffix.data.isSuffixOf s.data

/-- Model of `text.startswith(addition)`. -/
def strStartsWith (s pre : String) : Bool := pre.data.isPrefixOf s.data

/-- Method `CleanupInstruction.apply`: returns the new text and the hit
count of this application. `subnF` abstracts `pattern.subn(replacement, text)` for the
compiled regex (pattern source, flag bits). -/
def CleanupInstruction.apply (subnF : String × Nat → String → String → String × Nat)
    (inst : CleanupInstruction) (text path : String) : String × Nat :=
  if !(inst.applies_to_path path) then (text, 0)
  else if inst.kind = "replace" then
    let old := optStr inst.literal
    let new := optStr inst.replacement
    if old = "" then (text, 0)
    else if inst.case_sensitive then
      let r := pyReplace old.data new.data text.data
      if r.2 = 0 then (text, 0) else (String.mk r.1, r.2)
    else
      let r := pyReplaceCI old.data new.data text.data
      (String.mk r.1, r.2)
  else if inst.kind = "regex_sub" then
    match inst.pattern with
    | none => (text, 0)
    | some p => subnF p (optStr inst.replacement) text
  else if inst.kind = "append" then
    let addition := optStr inst.append_text
    if addition = "" then (text, 0)
    else if strEndsWith text addition then (text, 0)
    else (text ++ addition, 1)
  else if inst.kind = "prepend" then
    let addition := optStr inst.prepend_text
    if addition = "" then (text, 0)
    else if strStartsWith text addition then (text, 0)
    else (addition ++ text, 1)
  else (text, 0)

/-- The list comprehension of `load_instructions`: build every instruction,
propagating the first construction error. -/
def fromDictAll : List InstructionSpec → Except String (List CleanupInstruction)
  | [] => .ok []
  | s :: rest =>
    match CleanupInstruction.from_dict s with
    | .error e => .error e
    | .ok i => (fromDictAll rest).map (fun l => i :: l)

/-- Function `load_instructions` from scripts/postprocess_curriculum.py (after the
JSON wrapper has been unwrapped to the raw list of specifications). -/
def load_instructions (specs : List InstructionSpec) :
    Except String (List CleanupInstruction) :=
  match fromDictAll specs with
  | .error e => .error e
  | .ok l => if l.isEmpty then .error "No instructions defined." else .ok l

/-- Whether an `Except` is an error. -/
def isErr : Except String α → Bool
  | .error _ => true
  | .ok _ => false

/-! ## scripts/author_lessons.py : bundle_curriculum_output -/

/-- One lesson stub of the plan (`{"title", "slug?"}`). -/
structure LessonStub where
  title : Option String := none
  slug : Option String := none
deriving DecidableEq

/-- One module of the plan. -/
structure PlanModule where
  id : Option String := none
  slug : Option String := none
  title : Option String := none
  lessons : List LessonStub := []
deriving DecidableEq

/-- One level of the plan. -/
structure PlanLevel where
  id : Option String := none
  title : Option String := none
  modules : List PlanModule := []
deriving DecidableEq

/-- The curriculum plan (`{"levels": [...]}`). -/
structure Plan where
  levels : List PlanLevel
deriving DecidableEq

/-- A bundled module: `module_copy` (all fields but `lessons`, with the
deduplicated id substituted) plus the resolved lesson documents. A document
body is kept opaque as the string the resolver returned. -/
structure BModule where
  id : String
  slug : Option String
  title : Option String
  lessons : List String
deriving DecidableEq

/-- A bundled level: `level_copy` with the deduplicated id and the bundled
modules. -/
structure BLevel where
  id : String
  title : Option String
  modules : List BModule
deriving DecidableEq

/-- The merged output tree (`{"levels": [...]}`). -/
structure Bundle where
  levels : List BLevel
deriving DecidableEq

/-- The collision rename: a requested id already seen gets `-{len(seen)+1}`
appended. -/
def renameId (seen : List String) (r : String) : String :=
  if r ∈ seen then r ++ "-" ++ toString (seen.length + 1) else r

/-- The id-deduplication step shared by levels and modules: rename on
collision, then add the resulting id to the seen set (a no-op when it is
itself already present). -/
def assignId (seen : List String) (r : String) : String × List String :=
  (renameId seen r,
    if renameId seen r ∈ seen then seen else renameId seen r :: seen)

/-- The requested level id before deduplication:
`level.get("id") or normalize_slug(level.get("title", f"level-{n+1}")) or f"level-{n+1}"`
with `n = len(seen_level_ids)`. -/
def reqLevelId (seen : List String) (lv : PlanLevel) : String :=
  orElseStr (optStr lv.id)
    (orElseStr (normalize_slug (lv.title.getD ("level-" ++ toString (seen.length + 1))))
      ("level-" ++ toString (seen.length + 1)))

/-- The requested module id before deduplication:
`module.get("id") or module.get("slug") or normalize_slug(module.get("title", f"module-{n+1}")) or f"module-{n+1}"`
with `n = len(seen_module_ids)`. -/
def reqModuleId (seen : List String) (m : PlanModule) : String :=
  orElseStr (optStr m.id)
    (orElseStr (optStr m.slug)
      (orElseStr (normalize_slug (m.title.getD ("module-" ++ toString (seen.length + 1))))
        ("module-" ++ toString (seen.length + 1))))

/-- Model of `module.get("slug") or normalize_slug(module.get("title", "module"))`,
the directory holding the lesson files of the module. -/
def modSlugOf (m : PlanModule) : String :=
  orElseStr (optStr m.slug) (normalize_slug (m.title.getD "module"))

/-- Model of `normalize_slug(lesson.get("slug") or lesson.get("title", "lesson"))`. -/
def lessonSlugOf (l : LessonStub) : String :=
  normalize_slug (orElseStr (optStr l.slug) (l.title.getD "lesson"))

/-- The locator convention: baseDir slash modSlug slash lessonSlug dot json. -/
def lessonLocator (baseDir modSlug lessonSlug : String) : String :=
  baseDir ++ "/" ++ modSlug ++ "/" ++ lessonSlug ++ ".json"

/-- The lesson loop of one module: resolved documents in order plus the
locators of the lessons the resolver could not find, in walk order.
`resolve` abstracts `lesson_path.exists()` + reading the file. -/
def resolveLessons (resolve : String → Option String) (baseDir modSlug : String) :
    List LessonStub → List String × List String
  | [] => ([], [])
  | l :: rest =>
    let loc := lessonLocator baseDir modSlug (lessonSlugOf l)
    let r := resolveLessons resolve baseDir modSlug rest
    match resolve loc with
    | some d => (d :: r.1, r.2)
    | none => (r.1, loc :: r.2)

/-- The module loop of `bundle_curriculum_output`: bundled modules, missing
locators, and the final seen-module-id set. -/
def processModules (resolve : String → Option String) (baseDir : String)
    (seenM : List String) :
    List PlanModule → List BModule × List String × List String
  | [] => ([], [], seenM)
  | m :: rest =>
    let a := assignId seenM (reqModuleId seenM m)
    let r := resolveLessons resolve baseDir (modSlugOf m) m.lessons
    let rec0 := processModules resolve baseDir a.2 rest
    ({ id := a.1, slug := m.slug, title := m.title, lessons := r.1 } :: rec0.1,
      r.2 ++ rec0.2.1, rec0.2.2)

/-- The level loop of `bundle_curriculum_output`: bundled levels, missing
locators, final seen-level-id set, final seen-module-id set. -/
def processLevels (resolve : String → Option String) (baseDir : String)
    (seenL seenM : List String) :
    List PlanLevel → List BLevel × List String × List String × List String
  | [] => ([], [], seenL, seenM)
  | lv :: rest =>
    let a := assignId seenL (reqLevelId seenL lv)
    let pm := processModules resolve baseDir seenM lv.modules
    let rec0 := processLevels resolve baseDir a.2 pm.2.2 rest
    ({ id := a.1, title := lv.title, modules := pm.1 } :: rec0.1,
      pm.2.1 ++ rec0.2.1, rec0.2.2)

/-- Function `bundle_curriculum_output` from scripts/author_lessons.py, from the walk
onward (the earlier existence check of the generated base directory and the
final file write are I/O outside the model): if any lesson is missing after
the full walk, the whole operation fails with every missing locator and no
bundle is produced; otherwise the merged tree is returned. -/
def bundle_curriculum_output (resolve : String → Option String) (baseDir : String)
    (plan : Plan) : Except (List String) Bundle :=
  let r := processLevels resolve baseDir [] [] plan.levels
  if r.2.1.isEmpty then .ok { levels := r.1 } else .error r.2.1

/-- The missing locators of a plan, written as one flat pass: every lesson
whose conventional locator the resolver cannot resolve, in walk order. -/
def planMissing (resolve : String → Option String) (baseDir : String)
    (plan : Plan) : List String :=
  plan.levels.flatMap fun lv => lv.modules.flatMap fun m =>
    (m.lessons.map fun l => lessonLocator baseDir (modSlugOf m) (lessonSlugOf l)).filter
      fun loc => (resolve loc).isNone

/-- The deduplicated id sequence a namespace emits: `reqOf` computes the
requested id from the current seen set, `assignId` deduplicates. -/
def dedupIds (reqOf : List String → α → String) (seen : List String) :
    List α → List String
  | [] => []
  | a :: rest =>
    (assignId seen (reqOf seen a)).1 ::
      dedupIds reqOf (assignId seen (reqOf seen a)).2 rest

/-- The seen set left behind by `dedupIds`. -/
def dedupSeen (reqOf : List String → α → String) (seen : List String) :
    List α → List String
  | [] => seen
  | a :: rest => dedupSeen reqOf (assignId seen (reqOf seen a)).2 rest

/-- Whether every collision rename along the run is fresh: the emitted id is
not itself already in the seen set. When this holds the emitted ids are
pairwise distinct; a crafted plan can violate it (see the counterexample). -/
def dedupFresh (reqOf : List String → α → String) (seen : List String) :
    List α → Bool
  | [] => true
  | a :: rest =>
    !(decide ((assignId seen (reqOf seen a)).1 ∈ seen)) &&
      dedupFresh reqOf (assignId seen (reqOf seen a)).2 rest

/-- The module list of a plan in walk order (module ids are deduplicated in
one namespace across all levels). -/
def planModules (plan : Plan) : List PlanModule :=
  plan.levels.flatMap fun lv => lv.modules

/-- The flattened module ids of a bundle, in walk order. -/
def bundleModuleIds (b : Bundle) : List String :=
  b.levels.flatMap fun lv => lv.modules.map fun m => m.id

/-- The level ids of a bundle, in walk order. -/
def bundleLevelIds (b : Bundle) : List String :=
  b.levels.map fun lv => lv.id

/-- The module ids a bundling result emits (none on failure). -/
def moduleIdsOfResult : Except (List String) Bundle → List String
  | .ok b => bundleModuleIds b
  | .error _ => []

/-! ## Predicates about instruction specifications -/

/-- A regex flag the `from_dict` flag loop rejects. -/
def badFlag (f : String) : Bool :=
  !(strUpper f == "IGNORECASE" || strUpper f == "MULTILINE" || strUpper f == "DOTALL")

/-- The instruction kinds `from_dict` accepts. -/
def supportedKinds : List String := ["replace", "regex_sub", "append", "prepend"]

/-- The invalid instruction specifications named by the error policy:
missing/falsy type, replace without find, regex_sub without a truthy
pattern, regex_sub with an unsupported flag, or an unsupported kind. -/
def invalidSpec (spec : InstructionSpec) : Bool :=
  spec.type.isNone || spec.type == some "" ||
    (spec.type == some "replace" && spec.find.isNone) ||
    (spec.type == some "regex_sub" && (spec.pattern.isNone || spec.pattern == some "")) ||
    (spec.type == some "regex_sub" && spec.flags.any badFlag) ||
    (match spec.type with
     | some k => !(k == "") && !(supportedKinds.contains k)
     | none => false)

/-! ## Concrete inputs used by the witnesses and the counterexample -/

/-- A plan whose explicit module ids defeat the single-step rename:
the third module collides with "a", is renamed to "a-3", and that renamed id
is itself already taken. -/
def planC2 : Plan := { levels := [ { id := some "L", title := none, modules := [
  { id := some "a" }, { id := some "a-3" }, { id := some "a" } ] } ] }

/-- A plan with two modules both defaulting to the same normalized title
slug. -/
def planTwin : Plan := { levels := [ { id := none, title := some "Level One", modules := [
  { title := some "Same Title" }, { title := some "Same Title" } ] } ] }

/-- The bundle the assembler produces for `planTwin` under a resolver that
finds every lesson. -/
def bundleTwinModules : List BModule :=
  [ { id := "same-title", slug := none, title := some "Same Title", lessons := [] },
    { id := "same-title-2", slug := none, title := some "Same Title", lessons := [] } ]

def bundleTwin : Bundle :=
  { levels := [ { id := "level-one", title := some "Level One", modules := bundleTwinModules } ] }

/-- A plan with one module of two lessons, for the missing-lesson witness. -/
def planOneMod : Plan := { levels := [ { id := none, title := some "Level One", modules := [
  { id := none, slug := none, title := some "Mod",
    lessons := [ { title := some "Lesson One" }, { title := some "Lesson Two" } ] } ] } ] }

/-- Five vectorless records with distinct creation times. -/
def itemN (n : Int) (t : String) : Item :=
  { title := t, slug := "", module := "", vector := [], created_at := n }

def itemsFive : List Item :=
  [itemN 1 "a", itemN 2 "b", itemN 3 "c", itemN 4 "d", itemN 5 "e"]

/-- Three records, one of them carrying a vector, for the hybrid-mode
witness. -/
def itemVec : Item :=
  { title := "Hello World", slug := "s1", module := "m", vector := [1], created_at := 1 }

def itemNewer : Item :=
  { title := "Other", slug := "s2", module := "m", vector := [], created_at := 5 }

def itemMatch : Item :=
  { title := "hello again", slug := "s3", module := "m", vector := [], created_at := 3 }

def itemsHybrid : List Item := [itemVec, itemNewer, itemMatch]

/-- A trivial regex engine standing in for `pattern.subn` in witnesses. -/
def subnNoop : String × Nat → String → String → String × Nat := fun _ _ t => (t, 0)

/-- An append instruction with a non-empty payload, for the idempotence
witness. -/
def instAppend : CleanupInstruction :=
  { kind := "append", description := "append bang", append_text := some "!" }

/-- A replace instruction scoped to quiz paths, for the path-filter
witness. -/
def instQuiz : CleanupInstruction :=
  { kind := "replace", description := "quiz only", paths := ["quiz"],
    literal := some "Hello", replacement := some "Hi" }

/-- An instruction specification with an unsupported kind. -/
def specBadKind : InstructionSpec := { type := some "rotate" }

/-- An append specification with no text payload. -/
def specEmptyAppend : InstructionSpec := { type := some "append" }

/-- The instruction `from_dict` builds for `specEmptyAppend`. -/
def instEmptyAppend : CleanupInstruction :=
  { kind := "append", description := "append", append_text := some "" }

/-! ## Helper lemmas -/

theorem isErr_map (g : α → β) (e : Except String α) : isErr (e.map g) = isErr e := by
  cases e <;> rfl

theorem isPrefixOf_append (l r : List Char) : l.isPrefixOf (l ++ r) = true := by
  simp [List.isPrefixOf_iff_prefix, List.prefix_append]

theorem data_append (s t : String) : (s ++ t).data = s.data ++ t.data := by
  cases s; cases t; rfl

theorem strEndsWith_append (s t : String) : strEndsWith (s ++ t) t = true := by
  unfold strEndsWith List.isSuffixOf
  rw [data_append, List.reverse_append]
  exact isPrefixOf_append _ _

theorem strStartsWith_append (t s : String) : strStartsWith (t ++ s) t = true := by
  unfold strStartsWith
  rw [data_append]
  exact isPrefixOf_append _ _

/-! ## C9 : cosine never divides by zero, returns 0 on the guard cases -/

/-- C9: for every abstract square root and all vectors, `cosine` returns 0
whenever a vector is empty, the lengths differ, or a norm is zero; and on
every input it returns a value rather than an error (the zero-norm guard
runs before the division). -/
theorem c9_cosine_total (sqrt : Rat → Rat) (a b : List Rat)
    (h : a = [] ∨ b = [] ∨ a.length ≠ b.length ∨
      sqrt (sumSq a) = 0 ∨ sqrt (sumSq b) = 0) :
    cosine sqrt a b = .ok 0 ∧ ∀ x y : List Rat, isErr (cosine sqrt x y) = false := by
  constructor
  · by_cases hg : a = [] ∨ b = [] ∨ a.length ≠ b.length
    · simp [cosine, hg]
    · have hz : sqrt (sumSq a) = 0 ∨ sqrt (sumSq b) = 0 := by tauto
      simp [cosine, hg]
      rcases hz with hz | hz <;> simp [hz]
  · intro x y
    by_cases h1 : x = [] ∨ y = [] ∨ x.length ≠ y.length
    · simp [cosine, h1, isErr]
    · by_cases h2 : sqrt (sumSq x) = 0 ∨ sqrt (sumSq y) = 0
      · simp [cosine, h1, h2, isErr]
      · push_neg at h2
        simp [cosine, h1, h2.1, h2.2, pyDiv, mul_ne_zero h2.1 h2.2, isErr]

/-- Witness for C9 at a concrete input. -/
theorem c9_cosine_total_witness :
    cosine id ([] : List Rat) [1] = .ok 0 ∧ isErr (cosine id [2] [3]) = false :=
  ⟨(c9_cosine_total id [] [1] (Or.inl rfl)).1,
    (c9_cosine_total id [] [1] (Or.inl rfl)).2 [2] [3]⟩

/-! ## C4 : search with no vectors = recency ranking -/

/-- C4: when no record carries a non-empty vector, `search` returns the
records most-recent-first truncated to `k`, for any queries: the returned
prefix comes from a permutation of the index sorted descending by creation
time. -/
theorem c4_search_no_vectors (items : List Item) (queries : List String) (k : Nat)
    (h : hasVec items = false) :
    MemoryStore.search items queries k = (sortRecent items).take k ∧
      (sortRecent items).Sorted byRecent ∧ (sortRecent items).Perm items := by
  refine ⟨?_, List.sorted_insertionSort byRecent items, List.perm_insertionSort byRecent items⟩
  simp [MemoryStore.search, h]

/-- Witness for C4: the empty index yields the empty result, and five
vectorless records yield the two most recently created. -/
theorem c4_search_no_vectors_witness :
    hasVec ([] : List Item) = false ∧
    MemoryStore.search ([] : List Item) ["x"] 3 = [] ∧
    hasVec itemsFive = false ∧
    MemoryStore.search itemsFive ["anything"] 2 = [itemN 5 "e", itemN 4 "d"] := by
  refine ⟨by decide, ?_, by decide, ?_⟩
  · rw [(c4_search_no_vectors [] ["x"] 3 (by decide)).1]
    decide
  · rw [(c4_search_no_vectors itemsFive ["anything"] 2 (by decide)).1]
    decide

/-! ## C3 : hybrid search partitions by keyword match -/

/-- C3: once some record carries a non-empty vector, `search` returns the
keyword-matched partition followed by the rest, each partition sorted
most-recent-first, truncated to `k`; the two partitions exactly partition
the index by the keyword predicate. -/
theorem c3_search_hybrid (items : List Item) (queries : List String) (k : Nat)
    (h : hasVec items = true) :
    MemoryStore.search items queries k =
      (sortRecent (items.filter (kwMatch queries)) ++
        sortRecent (items.filter fun it => !(kwMatch queries it))).take k ∧
    (items.filter (kwMatch queries) ++
      items.filter fun it => !(kwMatch queries it)).Perm items ∧
    (∀ it ∈ items.filter (kwMatch queries), kwMatch queries it = true) ∧
    (∀ it ∈ items.filter fun it => !(kwMatch queries it), kwMatch queries it = false) ∧
    (sortRecent (items.filter (kwMatch queries))).Sorted byRecent ∧
    (sortRecent (items.filter fun it => !(kwMatch queries it))).Sorted byRecent ∧
    (sortRecent (items.filter (kwMatch queries))).Perm (items.filter (kwMatch queries)) ∧
    (sortRecent (items.filter fun it => !(kwMatch queries it))).Perm
      (items.filter fun it => !(kwMatch queries it)) := by
  refine ⟨by simp [MemoryStore.search, h], List.filter_append_perm _ items, ?_, ?_,
    List.sorted_insertionSort byRecent _, List.sorted_insertionSort byRecent _,
    List.perm_insertionSort byRecent _, List.perm_insertionSort byRecent _⟩
  · intro it hit
    exact (List.mem_filter.mp hit).2
  · intro it hit
    simpa using (List.mem_filter.mp hit).2

/-- Witness for C3 at a concrete three-record index with one vector. -/
theorem c3_search_hybrid_witness :
    hasVec itemsHybrid = true ∧
    MemoryStore.search itemsHybrid ["Hello"] 2 = [itemMatch, itemVec] := by
  refine ⟨by decide, ?_⟩
  rw [(c3_search_hybrid itemsHybrid ["Hello"] 2 (by decide)).1]
  decide

/-! ## C6 : path filtering is a frame condition -/

/-- C6: an instruction of any kind leaves a string leaf untouched, with hit
count 0, whenever its path misses every include token (the include set being
non-empty) or hits some exclude token. -/
theorem c6_path_filter_frame (subnF : String × Nat → String → String → String × Nat)
    (inst : CleanupInstruction) (path : String)
    (h : (inst.paths ≠ [] ∧ ∀ tok ∈ inst.paths, strContains path tok = false) ∨
      (∃ tok ∈ inst.exclude_paths, strContains path tok = true)) :
    ∀ text, inst.apply subnF text path = (text, 0) := by
  intro text
  have hap : inst.applies_to_path path = false := by
    rcases h with ⟨h1, h2⟩ | ⟨tok, hm, hc⟩
    · have e1 : inst.paths.isEmpty = false := by
        cases hp : inst.paths with
        | nil => exact absurd hp h1
        | cons a t => rfl
      have e2 : inst.paths.any (fun tok => strContains path tok) = false := by
        rw [List.any_eq_false]
        intro x hx
        simp [h2 x hx]
      simp [CleanupInstruction.applies_to_path, e1, e2]
    · have e3 : inst.exclude_paths.any (fun tok => strContains path tok) = true :=
        List.any_eq_true.mpr ⟨tok, hm, hc⟩
      have e4 : inst.exclude_paths.isEmpty = false := by
        cases he : inst.exclude_paths with
        | nil => rw [he] at hm; cases hm
        | cons a t => rfl
      simp [CleanupInstruction.applies_to_path, e3, e4]
  simp [CleanupInstruction.apply, hap]

/-- Witness for C6: a quiz-scoped replace instruction leaves a blocks leaf
untouched. -/
theorem c6_path_filter_frame_witness :
    (instQuiz.paths ≠ [] ∧
      ∀ tok ∈ instQuiz.paths, strContains "$.blocks[0].text" tok = false) ∧
    instQuiz.apply subnNoop "Hello" "$.blocks[0].text" = ("Hello", 0) :=
  ⟨⟨by decide, by decide⟩,
    c6_path_filter_frame subnNoop instQuiz "$.blocks[0].text"
      (Or.inl ⟨by decide, by decide⟩) "Hello"⟩

/-! ## C10 : empty-payload append/prepend is accepted and is a no-op -/

theorem apply_append_empty_payload
    (subnF : String × Nat → String → String → String × Nat)
    (inst : CleanupInstruction) (text path : String)
    (hk : inst.kind = "append") (he : inst.append_text = some "") :
    inst.apply subnF text path = (text, 0) := by
  by_cases happ : inst.applies_to_path path
  · simp [CleanupInstruction.apply, happ, hk, he, optStr]
  · simp [CleanupInstruction.apply, happ]

theorem apply_prepend_empty_payload
    (subnF : String × Nat → String → String → String × Nat)
    (inst : CleanupInstruction) (text path : String)
    (hk : inst.kind = "prepend") (he : inst.prepend_text = some "") :
    inst.apply subnF text path = (text, 0) := by
  by_cases happ : inst.applies_to_path path
  · simp [CleanupInstruction.apply, happ, hk, he, optStr]
  · simp [CleanupInstruction.apply, happ]

/-- C10: an append/prepend specification whose text payload is absent or
empty is accepted by `from_dict`, and the built instruction is a universal
no-op with hit count 0 on every string and path. -/
theorem c10_empty_text_noop (spec : InstructionSpec)
    (hk : spec.type = some "append" ∨ spec.type = some "prepend")
    (ht : spec.text = none ∨ spec.text = some "") :
    isErr (CleanupInstruction.from_dict spec) = false ∧
    ∀ inst, CleanupInstruction.from_dict spec = .ok inst →
      ∀ subnF text path, inst.apply subnF text path = (text, 0) := by
  have htext : spec.text.getD "" = "" := by rcases ht with h | h <;> simp [h]
  rcases hk with hk | hk
  · constructor
    · simp [CleanupInstruction.from_dict, hk, isErr]
    · intro inst hinst subnF text path
      simp only [CleanupInstruction.from_dict, hk] at hinst
      rw [if_pos trivial] at hinst
      have hi := (Except.ok.injEq _ _).mp hinst
      refine apply_append_empty_payload subnF inst text path ?_ ?_
      · rw [← hi]
      · rw [← hi]; simp [htext]
  · constructor
    · simp [CleanupInstruction.from_dict, hk, isErr]
    · intro inst hinst subnF text path
      simp only [CleanupInstruction.from_dict, hk] at hinst
      rw [if_pos trivial] at hinst
      have hi := (Except.ok.injEq _ _).mp hinst
      refine apply_prepend_empty_payload subnF inst text path ?_ ?_
      · rw [← hi]
      · rw [← hi]; simp [htext]

/-- Witness for C10: an append specification with no text is accepted and
leaves a concrete string unchanged. -/
theorem c10_empty_text_noop_witness :
    isErr (CleanupInstruction.from_dict specEmptyAppend) = false ∧
    instEmptyAppend.apply subnNoop "abc" "$.x" = ("abc", 0) :=
  ⟨(c10_empty_text_noop specEmptyAppend (Or.inl rfl) (Or.inl rfl)).1,
    (c10_empty_text_noop specEmptyAppend (Or.inl rfl) (Or.inl rfl)).2
      instEmptyAppend rfl subnNoop "abc" "$.x"⟩

/-! ## C5 : append/prepend idempotence -/

/-- C5: one application of an append/prepend instruction hits at most once,
and a second application at the same path returns the string unchanged with
hit count 0. -/
theorem c5_append_prepend_idem (subnF : String × Nat → String → String → String × Nat)
    (inst : CleanupInstruction) (text path : String)
    (hk : inst.kind = "append" ∨ inst.kind = "prepend") :
    (inst.apply subnF text path).2 ≤ 1 ∧
      inst.apply subnF (inst.apply subnF text path).1 path =
        ((inst.apply subnF text path).1, 0) := by
  by_cases happ : inst.applies_to_path path
  case neg => simp [CleanupInstruction.apply, happ]
  case pos =>
    rcases hk with hk | hk
    · by_cases hadd : optStr inst.append_text = ""
      · simp [CleanupInstruction.apply, happ, hk, hadd]
      · by_cases hend : strEndsWith text (optStr inst.append_text)
        · simp [CleanupInstruction.apply, happ, hk, hadd, hend]
        · have h1 : inst.apply subnF text path = (text ++ optStr inst.append_text, 1) := by
            simp [CleanupInstruction.apply, happ, hk, hadd, hend]
          rw [h1]
          exact ⟨le_refl 1, by
            simp [CleanupInstruction.apply, happ, hk, hadd, strEndsWith_append]⟩
    · by_cases hadd : optStr inst.prepend_text = ""
      · simp [CleanupInstruction.apply, happ, hk, hadd]
      · by_cases hstart : strStartsWith text (optStr inst.prepend_text)
        · simp [CleanupInstruction.apply, happ, hk, hadd, hstart]
        · have h1 : inst.apply subnF text path = (optStr inst.prepend_text ++ text, 1) := by
            simp [CleanupInstruction.apply, happ, hk, hadd, hstart]
          rw [h1]
          exact ⟨le_refl 1, by
            simp [CleanupInstruction.apply, happ, hk, hadd, strStartsWith_append]⟩

/-- Witness for C5 at a concrete append instruction. -/
theorem c5_append_prepend_idem_witness :
    instAppend.kind = "append" ∧
    (instAppend.apply subnNoop "hi" "$.a").2 ≤ 1 ∧
      instAppend.apply subnNoop (instAppend.apply subnNoop "hi" "$.a").1 "$.a" =
        ((instAppend.apply subnNoop "hi" "$.a").1, 0) :=
  ⟨rfl, c5_append_prepend_idem subnNoop instAppend "hi" "$.a" (Or.inl rfl)⟩

/-! ## C7 : invalid instruction specifications fail at construction -/

theorem computeFlags_err : ∀ fs : List String, fs.any badFlag = true →
    isErr (computeFlags fs) = true := by
  intro fs
  induction fs with
  | nil => simp
  | cons f rest ih =>
    intro h
    unfold computeFlags
    by_cases h1 : strUpper f = "IGNORECASE"
    · have hb : badFlag f = false := by simp [badFlag, h1]
      rw [List.any_cons, hb, Bool.false_or] at h
      simp [h1, isErr_map, ih h]
    · by_cases h2 : strUpper f = "MULTILINE"
      · have hb : badFlag f = false := by simp [badFlag, h2]
        rw [List.any_cons, hb, Bool.false_or] at h
        simp [h1, h2, isErr_map, ih h]
      · by_cases h3 : strUpper f = "DOTALL"
        · have hb : badFlag f = false := by simp [badFlag, h3]
          rw [List.any_cons, hb, Bool.false_or] at h
          simp [h1, h2, h3, isErr_map, ih h]
        · simp [h1, h2, h3, isErr]

theorem fromDictAll_err (spec : InstructionSpec)
    (hmain : isErr (CleanupInstruction.from_dict spec) = true) :
    ∀ specs : List InstructionSpec, spec ∈ specs →
      isErr (fromDictAll specs) = true := by
  intro specs hmem
  induction specs with
  | nil => cases hmem
  | cons s rest ih =>
    unfold fromDictAll
    rcases List.mem_cons.mp hmem with heq | hm
    · cases hfd : CleanupInstruction.from_dict s with
      | error e => simp [hfd, isErr]
      | ok i => rw [heq, hfd] at hmain; simp [isErr] at hmain
    · cases hfd : CleanupInstruction.from_dict s with
      | error e => simp [hfd, isErr]
      | ok i => simp [hfd, isErr_map, ih hm]

/-- C7: every invalid instruction specification (missing/falsy type, replace
without find, regex_sub without a truthy pattern, regex_sub with an
unsupported flag, unsupported kind) fails at construction time, and a batch
containing such a specification fails to load as a whole, before any tree is
touched. -/
theorem c7_invalid_spec_fails (spec : InstructionSpec) (h : invalidSpec spec = true) :
    isErr (CleanupInstruction.from_dict spec) = true ∧
      ∀ specs : List InstructionSpec, spec ∈ specs →
        isErr (load_instructions specs) = true := by
  have hmain : isErr (CleanupInstruction.from_dict spec) = true := by
    cases htype : spec.type with
    | none => simp [CleanupInstruction.from_dict, htype, isErr]
    | some k =>
      rw [invalidSpec, htype] at h
      by_cases hk0 : k = ""
      · subst hk0
        simp [CleanupInstruction.from_dict, htype, isErr]
      · by_cases hkr : k = "replace"
        · subst hkr
          have hfind : spec.find.isNone = true := by
            simpa [supportedKinds, badFlag] using h
          cases hf : spec.find with
          | none => simp [CleanupInstruction.from_dict, htype, hf, isErr]
          | some f => rw [hf] at hfind; simp at hfind
        · by_cases hkx : k = "regex_sub"
          · subst hkx
            have hpat : (spec.pattern.isNone || spec.pattern == some "") = true ∨
                spec.flags.any badFlag = true := by
              simpa [supportedKinds] using h
            cases hp : spec.pattern with
            | none => simp [CleanupInstruction.from_dict, htype, hp, isErr]
            | some p =>
              by_cases hp0 : p = ""
              · subst hp0
                simp [CleanupInstruction.from_dict, htype, hp, isErr]
              · have hflags : spec.flags.any badFlag = true := by
                  rcases hpat with hpat | hpat
                  · rw [hp] at hpat; simp [hp0] at hpat
                  · exact hpat
                have hcf := computeFlags_err spec.flags hflags
                cases hc : computeFlags spec.flags with
                | error e =>
                  simp [CleanupInstruction.from_dict, htype, hp, hp0, hc, isErr]
                | ok v => rw [hc] at hcf; simp [isErr] at hcf
          · have hrest : ¬ (k = "append") ∧ ¬ (k = "prepend") := by
              simp only [Bool.or_eq_true, Bool.and_eq_true] at h
              rcases h with ((((h | h) | h) | h) | h) | h
              · simp at h
              · simp at h
                exact absurd h hk0
              · exact absurd (by simpa using h.1) hkr
              · exact absurd (by simpa using h.1) hkx
              · exact absurd (by simpa using h.1) hkx
              · have hcont := h.2
                simp [supportedKinds] at hcont
                exact ⟨hcont.2.2.1, hcont.2.2.2⟩
            simp [CleanupInstruction.from_dict, htype, hk0, hkr, hkx,
              hrest.1, hrest.2, isErr]
  refine ⟨hmain, ?_⟩
  intro specs hmem
  have hall := fromDictAll_err spec hmain specs hmem
  unfold load_instructions
  cases hfa : fromDictAll specs with
  | error e => simp [isErr]
  | ok l => rw [hfa] at hall; simp [isErr] at hall

/-- Witness for C7: an unsupported kind is rejected, alone and in a batch. -/
theorem c7_invalid_spec_fails_witness :
    invalidSpec specBadKind = true ∧
    isErr (CleanupInstruction.from_dict specBadKind) = true ∧
    isErr (load_instructions [specBadKind]) = true :=
  ⟨by decide, (c7_invalid_spec_fails specBadKind (by decide)).1,
    (c7_invalid_spec_fails specBadKind (by decide)).2 [specBadKind] (by simp)⟩

/-! ## C8 : normalize_slug is idempotent -/

theorem mem_collapseAux {c : Char} :
    ∀ (b : Bool) (l : List Char), c ∈ collapseHyphensAux b l → c ∈ l := by
  intro b l
  induction l generalizing b with
  | nil => intro h; simp [collapseHyphensAux] at h
  | cons a rest ih =>
    intro h
    by_cases ha : a = '-'
    · subst ha
      cases b with
      | true =>
        rw [collapseHyphensAux, if_pos rfl, if_pos rfl] at h
        exact List.mem_cons_of_mem _ (ih true h)
      | false =>
        rw [collapseHyphensAux, if_pos rfl, if_neg (by simp)] at h
        rcases List.mem_cons.mp h with h1 | h1
        · rw [h1]; exact List.mem_cons_self _ _
        · exact List.mem_cons_of_mem _ (ih true h1)
    · rw [collapseHyphensAux, if_neg ha] at h
      rcases List.mem_cons.mp h with h1 | h1
      · rw [h1]; exact List.mem_cons_self _ _
      · exact List.mem_cons_of_mem _ (ih false h1)

theorem collapseAux_idem :
    ∀ (l : List Char) (b : Bool),
      collapseHyphensAux b (collapseHyphensAux b l) = collapseHyphensAux b l := by
  intro l
  induction l with
  | nil => intro b; rfl
  | cons a rest ih =>
    intro b
    by_cases ha : a = '-'
    · subst ha
      cases b with
      | true =>
        rw [collapseHyphensAux, if_pos rfl, if_pos rfl]
        exact ih true
      | false =>
        rw [collapseHyphensAux, if_pos rfl, if_neg (by simp)]
        rw [collapseHyphensAux, if_pos rfl, if_neg (by simp)]
        rw [ih true]
    · rw [collapseHyphensAux, if_neg ha]
      rw [collapseHyphensAux, if_neg ha]
      rw [ih false]

theorem kept_lower_fixed (c : Char) (h : keptChar c = true) : asciiLower c = c := by
  simp only [keptChar, Bool.or_eq_true, Bool.and_eq_true, decide_eq_true_eq] at h
  unfold asciiLower
  rw [if_neg]
  omega

theorem kept_not_space (c : Char) (h1 : keptChar c = true) (h2 : c.toNat ≠ 32) :
    isPySpaceChar c = false := by
  simp only [keptChar, Bool.or_eq_true, Bool.and_eq_true, decide_eq_true_eq] at h1
  rw [← Bool.not_eq_true]
  simp only [isPySpaceChar, Bool.or_eq_true, decide_eq_true_eq]
  omega

theorem spaceToHyphen_fixed (c : Char) (h : c.toNat ≠ 32) : spaceToHyphen c = c := by
  unfold spaceToHyphen
  rw [if_neg h]

theorem map_id_of_fixed {f : Char → Char} :
    ∀ l : List Char, (∀ c ∈ l, f c = c) → l.map f = l := by
  intro l h
  induction l with
  | nil => rfl
  | cons a t ih =>
    rw [List.map_cons, h a (List.mem_cons_self _ _),
      ih fun c hc => h c (List.mem_cons_of_mem _ hc)]

theorem dropWhile_eq_self_of {p : Char → Bool} (l : List Char)
    (h : ∀ c ∈ l, p c = false) : l.dropWhile p = l := by
  cases l with
  | nil => rfl
  | cons a t => rw [List.dropWhile_cons, h a (List.mem_cons_self _ _)]; simp

theorem pyStrip_eq_self (l : List Char) (h : ∀ c ∈ l, isPySpaceChar c = false) :
    pyStrip l = l := by
  unfold pyStrip
  rw [dropWhile_eq_self_of l h,
    dropWhile_eq_self_of l.reverse fun c hc => h c (List.mem_reverse.mp hc),
    List.reverse_reverse]

theorem normalize_of_clean (out : List Char)
    (hprop : ∀ c ∈ out, keptChar c = true ∧ c.toNat ≠ 32)
    (hcoll : collapseHyphens out = out) :
    normalize_slug (String.mk out) = String.mk out := by
  unfold normalize_slug
  have hdata : (String.mk out).data = out := rfl
  rw [hdata]
  rw [pyStrip_eq_self out fun c hc => kept_not_space c (hprop c hc).1 (hprop c hc).2]
  rw [map_id_of_fixed out fun c hc => kept_lower_fixed c (hprop c hc).1]
  rw [List.filter_eq_self.mpr fun c hc => (hprop c hc).1]
  rw [map_id_of_fixed out fun c hc => spaceToHyphen_fixed c (hprop c hc).2]
  rw [hcoll]

/-- C8: `normalize_slug` is a total function on strings (it is a Lean
function) and is idempotent: normalizing twice equals normalizing once, for
every string, including those that normalize to the empty slug. -/
theorem c8_normalize_slug_idem (s : String) :
    normalize_slug (normalize_slug s) = normalize_slug s := by
  have hX : normalize_slug s = String.mk (collapseHyphens
      ((((pyStrip s.data).map asciiLower).filter keptChar).map spaceToHyphen)) := rfl
  set X := (((pyStrip s.data).map asciiLower).filter keptChar).map spaceToHyphen with hXdef
  have hXprop : ∀ c ∈ X, keptChar c = true ∧ c.toNat ≠ 32 := by
    intro c hc
    rw [hXdef] at hc
    rcases List.mem_map.mp hc with ⟨d, hd, rfl⟩
    have hkept : keptChar d = true := (List.mem_filter.mp hd).2
    by_cases hd32 : d.toNat = 32
    · unfold spaceToHyphen
      rw [if_pos hd32]
      exact ⟨by decide, by decide⟩
    · unfold spaceToHyphen
      rw [if_neg hd32]
      exact ⟨hkept, hd32⟩
  have hprop : ∀ c ∈ collapseHyphens X, keptChar c = true ∧ c.toNat ≠ 32 :=
    fun c hc => hXprop c (mem_collapseAux false X hc)
  have hcoll : collapseHyphens (collapseHyphens X) = collapseHyphens X :=
    collapseAux_idem X false
  rw [hX]
  exact normalize_of_clean (collapseHyphens X) hprop hcoll

/-! ## C1 : missing lessons fail the whole bundle with every locator -/

theorem resolveLessons_missing (resolve : String → Option String)
    (baseDir modSlug : String) :
    ∀ ls : List LessonStub,
      (resolveLessons resolve baseDir modSlug ls).2 =
        (ls.map fun l => lessonLocator baseDir modSlug (lessonSlugOf l)).filter
          fun loc => (resolve loc).isNone := by
  intro ls
  induction ls with
  | nil => rfl
  | cons l rest ih =>
    unfold resolveLessons
    cases hres : resolve (lessonLocator baseDir modSlug (lessonSlugOf l)) with
    | some d => simp [hres, ih]
    | none => simp [hres, ih]

theorem processModules_missing (resolve : String → Option String) (baseDir : String) :
    ∀ (ms : List PlanModule) (seenM : List String),
      (processModules resolve baseDir seenM ms).2.1 =
        ms.flatMap fun m =>
          (m.lessons.map fun l =>
            lessonLocator baseDir (modSlugOf m) (lessonSlugOf l)).filter
            fun loc => (resolve loc).isNone := by
  intro ms
  induction ms with
  | nil => intro seenM; rfl
  | cons m rest ih =>
    intro seenM
    unfold processModules
    rw [List.flatMap_cons, ← resolveLessons_missing resolve baseDir (modSlugOf m) m.lessons,
      ← ih (assignId seenM (reqModuleId seenM m)).2]

theorem processLevels_missing (resolve : String → Option String) (baseDir : String) :
    ∀ (lvs : List PlanLevel) (seenL seenM : List String),
      (processLevels resolve baseDir seenL seenM lvs).2.1 =
        lvs.flatMap fun lv => lv.modules.flatMap fun m =>
          (m.lessons.map fun l =>
            lessonLocator baseDir (modSlugOf m) (lessonSlugOf l)).filter
            fun loc => (resolve loc).isNone := by
  intro lvs
  induction lvs with
  | nil => intro seenL seenM; rfl
  | cons lv rest ih =>
    intro seenL seenM
    unfold processLevels
    rw [List.flatMap_cons, ← processModules_missing resolve baseDir lv.modules seenM,
      ← ih (assignId seenL (reqLevelId seenL lv)).2
        (processModules resolve baseDir seenM lv.modules).2.2]

/-- C1: whenever at least one lesson of the plan cannot be resolved, the
assembler fails after the full walk with the complete list of missing
locators, in walk order, and produces no bundle at all. -/
theorem c1_missing_fails_whole (resolve : String → Option String) (baseDir : String)
    (plan : Plan) (h : planMissing resolve baseDir plan ≠ []) :
    bundle_curriculum_output resolve baseDir plan =
      .error (planMissing resolve baseDir plan) := by
  have hm : (processLevels resolve baseDir [] [] plan.levels).2.1 =
      planMissing resolve baseDir plan :=
    processLevels_missing resolve baseDir plan.levels [] []
  simp only [bundle_curriculum_output]
  rw [hm, if_neg]
  simp [List.isEmpty_iff, h]

/-- Witness for C1: a plan with two lessons, none resolvable, fails with
both locators and no bundle. -/
theorem c1_missing_fails_whole_witness :
    planMissing (fun _ => none) "generated" planOneMod ≠ [] ∧
    bundle_curriculum_output (fun _ => none) "generated" planOneMod =
      .error ["generated/mod/lesson-one.json", "generated/mod/lesson-two.json"] := by
  refine ⟨by decide, ?_⟩
  rw [c1_missing_fails_whole (fun _ => none) "generated" planOneMod (by decide)]
  rfl

/-! ## C2 : id deduplication -/

/-- C2 counterexample: the single-step rename does not force uniqueness.
In `planC2` the third module id "a" collides, is renamed to
"a-3" = "a" + "-" + str(len(seen)+1), and that id is already taken: the
emitted module ids contain a duplicate, refuting pairwise distinctness. -/
theorem c2_counterexample :
    moduleIdsOfResult (bundle_curriculum_output (fun _ => some "doc") "generated" planC2) =
      ["a", "a-3", "a-3"] ∧
    ¬ (moduleIdsOfResult
        (bundle_curriculum_output (fun _ => some "doc") "generated" planC2)).Nodup := by
  constructor
  · decide
  · decide

theorem processModules_ids (resolve : String → Option String) (baseDir : String) :
    ∀ (ms : List PlanModule) (seenM : List String),
      (processModules resolve baseDir seenM ms).1.map BModule.id =
          dedupIds reqModuleId seenM ms ∧
        (processModules resolve baseDir seenM ms).2.2 =
          dedupSeen reqModuleId seenM ms := by
  intro ms
  induction ms with
  | nil => intro seenM; exact ⟨rfl, rfl⟩
  | cons m rest ih =>
    intro seenM
    unfold processModules dedupIds dedupSeen
    constructor
    · rw [List.map_cons]
      rw [(ih (assignId seenM (reqModuleId seenM m)).2).1]
    · rw [(ih (assignId seenM (reqModuleId seenM m)).2).2]

theorem dedupIds_append (reqOf : List String → PlanModule → String) :
    ∀ (xs ys : List PlanModule) (seen : List String),
      dedupIds reqOf seen (xs ++ ys) =
        dedupIds reqOf seen xs ++ dedupIds reqOf (dedupSeen reqOf seen xs) ys := by
  intro xs
  induction xs with
  | nil => intro ys seen; rfl
  | cons x rest ih =>
    intro ys seen
    rw [List.cons_append]
    show (assignId seen (reqOf seen x)).1 ::
        dedupIds reqOf (assignId seen (reqOf seen x)).2 (rest ++ ys) = _
    rw [ih ys (assignId seen (reqOf seen x)).2]
    rfl

theorem processLevels_ids (resolve : String → Option String) (baseDir : String) :
    ∀ (lvs : List PlanLevel) (seenL seenM : List String),
      (processLevels resolve baseDir seenL seenM lvs).1.map BLevel.id =
          dedupIds reqLevelId seenL lvs ∧
        (processLevels resolve baseDir seenL seenM lvs).1.flatMap
            (fun lv => lv.modules.map BModule.id) =
          dedupIds reqModuleId seenM (lvs.flatMap fun lv => lv.modules) := by
  intro lvs
  induction lvs with
  | nil => intro seenL seenM; exact ⟨rfl, rfl⟩
  | cons lv rest ih =>
    intro seenL seenM
    constructor
    · show (assignId seenL (reqLevelId seenL lv)).1 ::
          (processLevels resolve baseDir (assignId seenL (reqLevelId seenL lv)).2
            (processModules resolve baseDir seenM lv.modules).2.2 rest).1.map BLevel.id =
        (assignId seenL (reqLevelId seenL lv)).1 ::
          dedupIds reqLevelId (assignId seenL (reqLevelId seenL lv)).2 rest
      rw [(ih (assignId seenL (reqLevelId seenL lv)).2
        (processModules resolve baseDir seenM lv.modules).2.2).1]
    · show (processModules resolve baseDir seenM lv.modules).1.map BModule.id ++
          (processLevels resolve baseDir (assignId seenL (reqLevelId seenL lv)).2
            (processModules resolve baseDir seenM lv.modules).2.2 rest).1.flatMap
            (fun lv => lv.modules.map BModule.id) =
        dedupIds reqModuleId seenM (lv.modules ++ rest.flatMap fun lv => lv.modules)
      rw [dedupIds_append reqModuleId lv.modules (rest.flatMap fun l => l.modules) seenM]
      rw [(processModules_ids resolve baseDir lv.modules seenM).1]
      rw [(ih (assignId seenL (reqLevelId seenL lv)).2
        (processModules resolve baseDir seenM lv.modules).2.2).2]
      rw [(processModules_ids resolve baseDir lv.modules seenM).2]

theorem dedupIds_nodup (reqOf : List String → α → String) :
    ∀ (as : List α) (seen : List String), dedupFresh reqOf seen as = true →
      (dedupIds reqOf seen as).Nodup ∧ ∀ x ∈ dedupIds reqOf seen as, x ∉ seen := by
  intro as
  induction as with
  | nil => intro seen _; exact ⟨List.nodup_nil, fun x hx => by cases hx⟩
  | cons a rest ih =>
    intro seen h
    unfold dedupFresh at h
    rw [Bool.and_eq_true] at h
    have hnot : (assignId seen (reqOf seen a)).1 ∉ seen := by
      have := h.1
      simp only [Bool.not_eq_true'] at this
      exact of_decide_eq_false this
    have hseen2 : (assignId seen (reqOf seen a)).2 =
        (assignId seen (reqOf seen a)).1 :: seen := by
      have hnot2 : renameId seen (reqOf seen a) ∉ seen := hnot
      show (if renameId seen (reqOf seen a) ∈ seen then seen
        else renameId seen (reqOf seen a) :: seen) = _
      rw [if_neg hnot2]
      rfl
    have hrest := ih (assignId seen (reqOf seen a)).2 h.2
    show ((assignId seen (reqOf seen a)).1 ::
      dedupIds reqOf (assignId seen (reqOf seen a)).2 rest).Nodup ∧ _
    constructor
    · rw [List.nodup_cons]
      refine ⟨fun hmem => ?_, hrest.1⟩
      have := hrest.2 _ hmem
      rw [hseen2] at this
      exact this (List.mem_cons_self _ _)
    · intro x hx
      rcases List.mem_cons.mp hx with rfl | hx2
      · exact hnot
      · have := hrest.2 x hx2
        rw [hseen2] at this
        exact fun hmem => this (List.mem_cons_of_mem _ hmem)

/-- C2 (amended): the assembler deduplicates level ids and module ids in
independent namespaces, renaming a collision to
`{id}-{count of seen ids + 1}` instead of failing; whenever every such
renamed id is itself fresh — in particular when two modules default to the
identical normalized title slug — the emitted level ids and module ids are
pairwise distinct. A crafted plan whose explicit ids already contain the
renamed form violates the freshness side condition and receives duplicate
ids (see the counterexample). -/
theorem c2_dedup_ids (resolve : String → Option String) (baseDir : String)
    (plan : Plan) (b : Bundle)
    (hok : bundle_curriculum_output resolve baseDir plan = .ok b)
    (hL : dedupFresh reqLevelId [] plan.levels = true)
    (hM : dedupFresh reqModuleId [] (planModules plan) = true) :
    (bundleLevelIds b).Nodup ∧ (bundleModuleIds b).Nodup := by
  unfold bundle_curriculum_output at hok
  by_cases hmp : (processLevels resolve baseDir [] [] plan.levels).2.1.isEmpty
  · rw [if_pos hmp] at hok
    have hb : b.levels = (processLevels resolve baseDir [] [] plan.levels).1 := by
      have := (Except.ok.injEq _ _).mp hok
      rw [← this]
    unfold bundleLevelIds bundleModuleIds
    rw [hb]
    rw [(processLevels_ids resolve baseDir plan.levels [] []).1,
      (processLevels_ids resolve baseDir plan.levels [] []).2]
    exact ⟨(dedupIds_nodup reqLevelId plan.levels [] hL).1,
      (dedupIds_nodup reqModuleId (plan.levels.flatMap fun lv => lv.modules) [] hM).1⟩
  · rw [if_neg hmp] at hok
    cases hok

/-- Witness for C2: a resolvable plan with two modules sharing the same
default title slug bundles successfully, the freshness side condition holds,
and the emitted ids are pairwise distinct ("same-title" and
"same-title-2"). -/
theorem c2_dedup_ids_witness :
    bundle_curriculum_output (fun _ => some "doc") "generated" planTwin = .ok bundleTwin ∧
    dedupFresh reqLevelId [] planTwin.levels = true ∧
    dedupFresh reqModuleId [] (planModules planTwin) = true ∧
    bundleModuleIds bundleTwin = ["same-title", "same-title-2"] ∧
    (bundleLevelIds bundleTwin).Nodup ∧ (bundleModuleIds bundleTwin).Nodup := by
  refine ⟨rfl, by decide, by decide, by decide, ?_, ?_⟩
  · exact (c2_dedup_ids (fun _ => some "doc") "generated" planTwin bundleTwin
      rfl (by decide) (by decide)).1
  · exact (c2_dedup_ids (fun _ => some "doc") "generated" planTwin bundleTwin
      rfl (by decide) (by decide)).2
